import Mathlib

/-!
Verification development for the Job-Automation repository
(src/inb/linkedin_outreach.py, src/inb/linkedin_dm.py).

The Python sources are shallowly embedded: the quota ledger becomes pure
state-passing functions over an `Option Quota` / `Option Usage` file value,
the orchestrator loop becomes a recursive function over the list of
per-target results, the file write of `save_quota` is modelled at the
byte level with explicit crash points, and the relationship-probe cascade
of `send_direct_message` becomes a function over an abstract page state.
-/

namespace JobAutomation

/-! ### Quota ledger (linkedin_outreach.py lines 26-78) -/

/-- `DAILY_LIMIT = 25` in linkedin_outreach.py. -/
def DAILY_LIMIT : Nat := 25

/-- `DAILY_MESSAGE_LIMIT = 25` in linkedin_dm.py. -/
def DAILY_MESSAGE_LIMIT : Nat := 25

/-- `DAILY_CONNECTION_LIMIT = 15` in linkedin_dm.py. -/
def DAILY_CONNECTION_LIMIT : Nat := 15

/-- The quota record persisted by linkedin_outreach.py:
a JSON object with keys `date` and `sent`. -/
structure Quota where
  date : String
  sent : Nat
deriving DecidableEq, Repr

/-- `load_quota` (linkedin_outreach.py lines 41-56): read the persisted
record if the file exists; if its `date` field differs from today, or the
file is absent, start a fresh record for today with `sent = 0`.
The file argument is the parsed content of `linkedin_quota.json`
(`none` = file absent). -/
def load_quota (file : Option Quota) (today : String) : Quota :=
  match file with
  | some q => if q.date ≠ today then { date := today, sent := 0 } else q
  | none => { date := today, sent := 0 }

/-- `get_remaining_quota` (linkedin_outreach.py lines 67-70):
`max(0, DAILY_LIMIT - quota['sent'])`. -/
def get_remaining_quota (file : Option Quota) (today : String) : Int :=
  max 0 ((DAILY_LIMIT : Int) - ((load_quota file today).sent : Int))

/-- `increment_quota` (linkedin_outreach.py lines 73-78): load, add one to
`sent`, save.  The returned record is what `save_quota` persists. -/
def increment_quota (file : Option Quota) (today : String) : Quota :=
  let q := load_quota file today
  { q with sent := q.sent + 1 }

/-! ### Usage ledger (linkedin_dm.py lines 29-72) -/

/-- The usage record persisted by linkedin_dm.py: a JSON object with keys
`date`, `messages`, `connections`. -/
structure Usage where
  date : String
  messages : Nat
  connections : Nat
deriving DecidableEq, Repr

/-- `load_usage` (linkedin_dm.py lines 34-46): read the persisted record;
reset to a fresh record when the stored `date` differs from today or the
file is absent. -/
def load_usage (file : Option Usage) (today : String) : Usage :=
  match file with
  | some u =>
      if u.date ≠ today then { date := today, messages := 0, connections := 0 } else u
  | none => { date := today, messages := 0, connections := 0 }

/-- `get_remaining_quota(action_type)` of linkedin_dm.py (lines 57-64):
branch on the action-type string, clamp with `max 0`, return `0` for an
unknown action type. -/
def get_remaining_usage (file : Option Usage) (today : String) (action_type : String) : Int :=
  let u := load_usage file today
  if action_type = "messages" then
    max 0 ((DAILY_MESSAGE_LIMIT : Int) - (u.messages : Int))
  else if action_type = "connections" then
    max 0 ((DAILY_CONNECTION_LIMIT : Int) - (u.connections : Int))
  else 0

/-- `increment_usage(action_type, count)` (linkedin_dm.py lines 67-72):
load, add `count` to the named counter, save. -/
def increment_usage (file : Option Usage) (today : String) (action_type : String)
    (count : Nat) : Usage :=
  let u := load_usage file today
  if action_type = "messages" then { u with messages := u.messages + count }
  else if action_type = "connections" then { u with connections := u.connections + count }
  else u

/-! ### File-level model of `save_quota` (linkedin_outreach.py lines 59-64)

`save_quota` opens `linkedin_quota.json` with mode `'w'` and `json.dump`s
the record into it.  Opening with `'w'` truncates the file at once; the
serialized bytes are then written.  We model the durable file content at
every possible crash point of this sequence. -/

/-- The exact byte string `json.dump` produces for a quota record:
`\x7b"date": "<date>", "sent": <sent>\x7d`. -/
def encodeQuota (q : Quota) : String :=
  "\x7b\"date\": \"" ++ q.date ++ "\", \"sent\": " ++ toString q.sent ++ "\x7d"

/-- Durable file content when the process crashes during a truncating
overwrite (`open(path, 'w')` followed by a write of `next`).
Crash point `0`: before the open — the previous content `pre` survives.
Crash point `k + 1`: after the open, with `k` bytes of `next` written —
the file holds exactly those `k` bytes (the old content is gone).
The write is complete once `next.length ≤ k`. -/
def saveCrashContent (pre : Option (List Char)) (next : List Char) :
    Nat → Option (List Char)
  | 0 => pre
  | k + 1 => some (next.take k)

/-! ### Identity extraction (linkedin_outreach.py lines 81-86,
linkedin_dm.py lines 75-80; the two definitions are identical) -/

/-- The literal marker of the regex `linkedin\.com/in/([^/?]+)`. -/
def marker : List Char := "linkedin.com/in/".data

/-- A character the capture group `[^/?]+` accepts. -/
def idChar (c : Char) : Bool := c ≠ '/' && c ≠ '?'

/-- `re.search` semantics for the pattern `linkedin\.com/in/([^/?]+)`:
scan left to right for the first position where the whole pattern matches
(marker followed by at least one `idChar`), and return the maximal capture
there; `none` when no position matches. -/
def searchPublicId : List Char → Option (List Char)
  | [] => none
  | c :: rest =>
      if marker.isPrefixOf (c :: rest) then
        let seg := (List.drop marker.length (c :: rest)).takeWhile idChar
        if seg.isEmpty then searchPublicId rest else some seg
      else searchPublicId rest

/-- `extract_public_id` (identical in both source files): `None`/NaN and
falsy (empty) strings yield `None`; otherwise search for the pattern and
return the captured group. -/
def extract_public_id (linkedin_url : Option String) : Option String :=
  match linkedin_url with
  | none => none
  | some s =>
      if s = "" then none
      else (searchPublicId s.data).map fun l => String.mk l

/-! ### Profile loading from the spreadsheet
(linkedin_outreach.py lines 89-108, linkedin_dm.py lines 83-103) -/

/-- One spreadsheet row as the loaders read it.  `none` in a cell models a
pandas NaN (absent value); `Linkedin URL` and `Status` are the columns the
loaders inspect. -/
structure Row where
  name : Option String
  url : Option String
  status : Option String
deriving DecidableEq, Repr

/-- One entry of the `profiles` list both loaders build. -/
structure Profile where
  name : Option String
  public_id : String
  linkedin_url : Option String
  row_index : Nat
deriving DecidableEq, Repr

/-- Row filter of linkedin_outreach.py line 94:
`df['Status'].isna() | (df['Status'] == '')`. -/
def isUncontacted (r : Row) : Bool :=
  r.status = none || r.status = some ""

/-- Row filter of linkedin_dm.py lines 88-89:
`~df['Status'].isin(['sent','messaged','dm_sent','message_sent']) | isna`.
A NaN status is not a member of the list, so the filter reduces to
non-membership. -/
def isUnsentDm (r : Row) : Bool :=
  !(["sent", "messaged", "dm_sent", "message_sent"].any
      fun done => r.status = some done)

/-- Shared tail of both loaders (lines 96-106 / 91-101): take the first
`limit` filtered rows (`unsent.head(limit)`), then keep only those whose
URL yields a public id.  `rows` carries the original dataframe index of
each row (`row.name` in the source). -/
def buildProfiles (rows : List (Nat × Row)) (filter : Row → Bool)
    (limit : Nat) : List Profile :=
  ((rows.filter fun p => filter p.2).take limit).filterMap fun p =>
    (extract_public_id p.2.url).map fun pid =>
      { name := p.2.name
        public_id := pid
        linkedin_url := p.2.url
        row_index := p.1 }

/-- `load_profiles_from_excel` of linkedin_outreach.py: filter the
not-yet-contacted rows, cut to `limit`, then drop rows without a parseable
URL. -/
def load_profiles_from_excel (df : List Row) (limit : Nat) : List Profile :=
  buildProfiles df.enum isUncontacted limit

/-- `load_profiles_from_excel` of linkedin_dm.py: same shape with the
already-messaged filter. -/
def load_profiles_from_excel_dm (df : List Row) (limit : Nat) : List Profile :=
  buildProfiles df.enum isUnsentDm limit

/-! ### Message truncation (linkedin_outreach.py lines 486-488 and 398-401) -/

/-- Lines 486-488 of `main`: `if len(message) > 300: message =
message[:297] + "..."` — the upstream truncation applied before any
profile is attempted. -/
def trim_message (m : List Char) : List Char :=
  if 300 < m.length then m.take 297 ++ ("...".data) else m

/-- Line 400 of `_handle_connect_modal`:
`textareas[0].send_keys(message[:300])` — what the executor actually
types into the note field. -/
def typed_note (m : List Char) : List Char := m.take 300

/-! ### Orchestrator loop (linkedin_outreach.py `main`, lines 528-568) -/

/-- The closed set of result strings an attempt can hand to the loop:
every `return` of `send_direct_message` / `_handle_connect_modal`, plus
`browser_error` from the `except` wrapper at lines 543-546 and the
`not_connected` string the loop branches on at line 553. -/
inductive SendResult where
  | sent
  | already_connected
  | pending
  | follow_only
  | no_connect_button
  | no_send_button
  | not_connected
  | session_expired
  | page_load_error (detail : String)
  | click_error (detail : String)
  | modal_error (detail : String)
  | error (detail : String)
  | browser_error (detail : String)
deriving DecidableEq, Repr

/-- The status string `update_excel_status` receives for a result, per the
branches at lines 548-562.  The `session_expired` branch performs no
write; the value returned here for it is never used by `runLoop`. -/
def statusOf : SendResult → String
  | .sent => "sent"
  | .not_connected => "not_connected"
  | _ => "failed"

/-- Mutable state of the `main` loop: the quota file, the sequence of
`(row_index, status)` writes issued to the Excel recorder, the two
counters, and the list of `(row_index, result)` pairs of targets actually
attempted (in order). -/
structure LoopState where
  file : Option Quota
  recs : List (Nat × String)
  success_count : Nat
  failure_count : Nat
  processed : List (Nat × SendResult)
deriving DecidableEq, Repr

/-- The `for` loop of linkedin_outreach.py lines 528-568.  Each target is
given as its dataframe row index paired with the result its attempt would
produce.  Per iteration: stop if the remaining quota is zero; otherwise
attempt the target, then branch exactly as the source does —
`sent` increments the counter and the quota ledger and records `sent`;
`not_connected` records `not_connected`; `session_expired` breaks out of
the loop with no record; anything else increments the failure counter and
records `failed`. -/
def runLoop (today : String) : List (Nat × SendResult) → LoopState → LoopState
  | [], s => s
  | (row, r) :: rest, s =>
    if get_remaining_quota s.file today = 0 then s
    else
      let s1 : LoopState := { s with processed := s.processed ++ [(row, r)] }
      match r with
      | .sent =>
          runLoop today rest
            { s1 with
              success_count := s1.success_count + 1
              file := some (increment_quota s1.file today)
              recs := s1.recs ++ [(row, "sent")] }
      | .not_connected =>
          runLoop today rest { s1 with recs := s1.recs ++ [(row, "not_connected")] }
      | .session_expired => s1
      | _ =>
          runLoop today rest
            { s1 with
              failure_count := s1.failure_count + 1
              recs := s1.recs ++ [(row, "failed")] }

/-- The loop state at the start of a run. -/
def initState (file : Option Quota) : LoopState :=
  { file := file, recs := [], success_count := 0, failure_count := 0, processed := [] }

/-- The state update one loop iteration performs on its target (the body
of the branches at lines 548-562), factored out of `runLoop` for
reasoning: `runLoop` on a non-empty target list under positive quota is
`stepState` followed by the recursion (except that `session_expired`
stops with the stepped state). -/
def stepState (today : String) (row : Nat) (r : SendResult) (s : LoopState) : LoopState :=
  let s1 : LoopState := { s with processed := s.processed ++ [(row, r)] }
  match r with
  | .sent =>
      { s1 with
        success_count := s1.success_count + 1
        file := some (increment_quota s1.file today)
        recs := s1.recs ++ [(row, "sent")] }
  | .not_connected => { s1 with recs := s1.recs ++ [(row, "not_connected")] }
  | .session_expired => s1
  | _ =>
      { s1 with
        failure_count := s1.failure_count + 1
        recs := s1.recs ++ [(row, "failed")] }

/-- Number of targets in a processed batch whose result was `sent`. -/
def sentCount (l : List (Nat × SendResult)) : Nat :=
  l.countP fun p => decide (p.2 = SendResult.sent)

/-- Result strings `send_dm` of linkedin_dm.py can return
(lines 193-299). -/
inductive DmResult where
  | sent
  | sent_enter
  | not_connected
  | no_message_button
  | no_message_input
  | error (detail : String)
deriving DecidableEq, Repr

/-- Ledger effect of one iteration of linkedin_dm.py `main` in `dm` mode
(lines 492-530): the usage file is incremented for `messages` exactly on
`sent` / `sent_enter`; every other branch leaves the file untouched. -/
def dmStepFile (file : Option Usage) (today : String) (r : DmResult) : Option Usage :=
  match r with
  | .sent | .sent_enter => some (increment_usage file today "messages" 1)
  | _ => file

/-! ### Relationship probe and connect-button cascade
(linkedin_outreach.py `send_direct_message`, lines 260-352) -/

/-- Abstract page state: for each locator strategy of the cascade, whether
(and which element) it would match on the current page.  Elements are
opaque ids.  Fields follow the source order: the three early relationship
probes, connect-button methods 1-5, the overflow menu of method 6 with its
three in-menu lookups, method 7, and the final follow probe. -/
structure Page where
  messageBtn : Bool
  pendingAria : Bool
  pendingSpan : Bool
  connect1 : Option Nat
  connect2 : Option Nat
  connect3 : Option Nat
  connect4 : Option Nat
  connect5 : Option Nat
  moreActions : Bool
  menuConnect1 : Option Nat
  menuConnect2 : Option Nat
  menuConnect3 : Option Nat
  connect7 : Option Nat
  followBtn : Bool
deriving DecidableEq, Repr

/-- Outcome of the probe phase of `send_direct_message`: either one of the
terminal classifications it returns directly, or the connect control it
will click (directly or through the overflow menu). -/
inductive ProbeOutcome where
  | already_connected
  | pending
  | connectVia (e : Nat)
  | menuConnectVia (e : Nat)
  | follow_only
  | no_connect_button
deriving DecidableEq, Repr

/-- The probe phase as the source writes it (lines 260-352): two early
returns, then the `if not connect_button` chain over methods 1-5, the
overflow-menu method 6, method 7, and the follow / no-button fallback. -/
def classify (p : Page) : ProbeOutcome :=
  if p.messageBtn then .already_connected
  else if p.pendingAria then .pending
  else if p.pendingSpan then .pending
  else
    match p.connect1 <|> p.connect2 <|> p.connect3 <|> p.connect4 <|> p.connect5 with
    | some e => .connectVia e
    | none =>
        match
          (if p.moreActions then p.menuConnect1 <|> p.menuConnect2 <|> p.menuConnect3
           else none) with
        | some e => .menuConnectVia e
        | none =>
            match p.connect7 with
            | some e => .connectVia e
            | none => if p.followBtn then .follow_only else .no_connect_button

/-- Generic ordered first-match resolution: try each strategy against the
page in order, return the first hit. -/
def resolveFirst (strategies : List (Page → Option ProbeOutcome)) (p : Page) :
    Option ProbeOutcome :=
  match strategies with
  | [] => none
  | f :: rest =>
      match f p with
      | some r => some r
      | none => resolveFirst rest p

/-- The declarative priority list behind `classify`: one entry per probe,
in source order. -/
def probeStrategies : List (Page → Option ProbeOutcome) :=
  [ fun p => if p.messageBtn then some .already_connected else none
  , fun p => if p.pendingAria then some .pending else none
  , fun p => if p.pendingSpan then some .pending else none
  , fun p => p.connect1.map .connectVia
  , fun p => p.connect2.map .connectVia
  , fun p => p.connect3.map .connectVia
  , fun p => p.connect4.map .connectVia
  , fun p => p.connect5.map .connectVia
  , fun p =>
      (if p.moreActions then p.menuConnect1 <|> p.menuConnect2 <|> p.menuConnect3
       else none).map .menuConnectVia
  , fun p => p.connect7.map .connectVia
  , fun p => if p.followBtn then some .follow_only else none ]

/-! ## Theorems -/

/-- C2: day-rollover reset law.  For every persisted quota/usage record
whose stored day differs from the current day, the remaining-quota
functions return the full daily allowance (25 messages / 15 connections)
regardless of the stale stored count; the reset is only persisted by the
next commit, which writes a record for today with count 1. -/
theorem day_rollover_reset_law (today : String) (q : Quota) (u : Usage)
    (hq : q.date ≠ today) (hu : u.date ≠ today) :
    get_remaining_quota (some q) today = 25 ∧
    get_remaining_usage (some u) today "messages" = 25 ∧
    get_remaining_usage (some u) today "connections" = 15 ∧
    increment_quota (some q) today = { date := today, sent := 1 } := by
  refine ⟨?_, ?_, ?_, ?_⟩ <;>
    simp [get_remaining_quota, get_remaining_usage, load_quota, load_usage,
      increment_quota, DAILY_LIMIT, DAILY_MESSAGE_LIMIT, DAILY_CONNECTION_LIMIT, hq, hu]

/-- Witness for C2 at a concrete stale record. -/
theorem day_rollover_reset_law_witness :
    get_remaining_quota (some { date := "2025-01-01", sent := 24 }) "2025-01-02" = 25 ∧
    get_remaining_usage (some { date := "2025-01-01", messages := 25, connections := 15 })
        "2025-01-02" "messages" = 25 ∧
    get_remaining_usage (some { date := "2025-01-01", messages := 25, connections := 15 })
        "2025-01-02" "connections" = 15 ∧
    increment_quota (some { date := "2025-01-01", sent := 24 }) "2025-01-02"
      = { date := "2025-01-02", sent := 1 } :=
  day_rollover_reset_law "2025-01-02" { date := "2025-01-01", sent := 24 }
    { date := "2025-01-01", messages := 25, connections := 15 }
    (by decide) (by decide)

/-- C9: `increment_quota` unconditionally increments with no check
against `DAILY_LIMIT`; invoked at the limit it persists a count above the
limit, after which `get_remaining_quota` returns 0; and the remaining
quota is never negative for any persisted record. -/
theorem increment_unbounded_remaining_clamped :
    (∀ (today : String) (q : Quota), q.date = today →
      (increment_quota (some q) today).sent = q.sent + 1) ∧
    (∀ (today : String) (q : Quota), q.date = today → q.sent = DAILY_LIMIT →
      (increment_quota (some q) today).sent = 26 ∧
      get_remaining_quota (some (increment_quota (some q) today)) today = 0) ∧
    (∀ (file : Option Quota) (today : String), 0 ≤ get_remaining_quota file today) := by
  refine ⟨?_, ?_, ?_⟩
  · intro today q hd
    simp [increment_quota, load_quota, hd]
  · intro today q hd hs
    constructor
    · simp [increment_quota, load_quota, hd, hs, DAILY_LIMIT]
    · simp [increment_quota, get_remaining_quota, load_quota, hd, hs, DAILY_LIMIT]
  · intro file today
    exact le_max_left 0 _

/-- Witness for C9 at a record already at the daily limit. -/
theorem increment_unbounded_remaining_clamped_witness :
    (increment_quota (some { date := "2025-03-03", sent := 25 }) "2025-03-03").sent = 26 ∧
    get_remaining_quota
        (some (increment_quota (some { date := "2025-03-03", sent := 25 }) "2025-03-03"))
        "2025-03-03" = 0 ∧
    0 ≤ get_remaining_quota (some { date := "2025-03-03", sent := 100 }) "2025-03-03" := by
  refine ⟨(increment_unbounded_remaining_clamped.2.1 "2025-03-03" _ rfl rfl).1,
    (increment_unbounded_remaining_clamped.2.1 "2025-03-03" _ rfl rfl).2,
    increment_unbounded_remaining_clamped.2.2 _ "2025-03-03"⟩

/-- C8: payloads over 300 characters are truncated by `main` to exactly
300 characters ending in the three-character ellipsis marker, and the
executor's own `message[:300]` slice then passes them through unchanged
(i.e. truncation effectively happens once, upstream); payloads of at most
300 characters reach the executor unchanged. -/
theorem message_truncation_300 (m : List Char) :
    (300 < m.length →
      (trim_message m).length = 300 ∧
      (trim_message m).drop 297 = "...".data ∧
      typed_note (trim_message m) = trim_message m) ∧
    (m.length ≤ 300 → trim_message m = m ∧ typed_note m = m) := by
  constructor
  · intro h
    have h297 : (m.take 297).length = 297 := by
      rw [List.length_take]; omega
    have hlen : (trim_message m).length = 300 := by
      simp only [trim_message, if_pos h, List.length_append, h297]
      decide
    refine ⟨hlen, ?_, ?_⟩
    · simp only [trim_message, if_pos h]
      exact List.drop_left' h297
    · exact List.take_of_length_le (by omega)
  · intro h
    have ht : trim_message m = m := by
      simp only [trim_message, if_neg (by omega : ¬ 300 < m.length)]
    exact ⟨ht, List.take_of_length_le (by omega)⟩

/-- Witness for C8: a 400-character payload and a short payload. -/
theorem message_truncation_300_witness :
    (trim_message (List.replicate 400 'x')).length = 300 ∧
    (trim_message (List.replicate 400 'x')).drop 297 = "...".data ∧
    typed_note (trim_message (List.replicate 400 'x')) = trim_message (List.replicate 400 'x') ∧
    trim_message ("hello".data) = "hello".data ∧
    typed_note ("hello".data) = "hello".data := by
  obtain ⟨h1, h2, h3⟩ :=
    (message_truncation_300 (List.replicate 400 'x')).1
      (by rw [List.length_replicate]; omega)
  obtain ⟨h4, h5⟩ := (message_truncation_300 ("hello".data)).2 (by decide)
  exact ⟨h1, h2, h3, h4, h5⟩

/-- C1 counterexample: the claim that at every crash point the persisted
quota record holds either the pre-commit count or the incremented count is
false.  `save_quota` overwrites `linkedin_quota.json` in place
(`open(path, 'w')` truncates); crashing right after the truncating open
(crash point 1, zero bytes written) leaves an empty file, which is neither
the pre-commit record nor the incremented record. -/
theorem save_quota_not_crash_atomic :
    saveCrashContent (some (encodeQuota { date := "2025-01-01", sent := 3 }).data)
        ((encodeQuota { date := "2025-01-01", sent := 4 }).data) 1 = some [] ∧
    some ([] : List Char) ≠ some (encodeQuota { date := "2025-01-01", sent := 3 }).data ∧
    some ([] : List Char) ≠ some (encodeQuota { date := "2025-01-01", sent := 4 }).data :=
  ⟨rfl, by decide, by decide⟩

/-- C1 amended: a commit whose durable write completed persists the count
incremented exactly once and is never lost afterwards, but commit is not
crash-atomic — a crash between the truncating open and the end of the
write can leave a partial or empty record (see the counterexample). -/
theorem save_quota_completed_write_durable (q : Quota) (today : String) (k : Nat)
    (hk : (encodeQuota (increment_quota (some q) today)).data.length ≤ k) :
    saveCrashContent (some (encodeQuota q).data)
        ((encodeQuota (increment_quota (some q) today)).data) (k + 1)
      = some ((encodeQuota (increment_quota (some q) today)).data) ∧
    (increment_quota (some q) today).sent = (load_quota (some q) today).sent + 1 := by
  constructor
  · simp [saveCrashContent, List.take_of_length_le hk]
  · simp [increment_quota]

/-- Witness for the C1 amended theorem at a concrete record. -/
theorem save_quota_completed_write_durable_witness :
    saveCrashContent (some (encodeQuota { date := "2025-01-01", sent := 3 }).data)
        ((encodeQuota (increment_quota (some { date := "2025-01-01", sent := 3 })
          "2025-01-01")).data) 101
      = some ((encodeQuota (increment_quota (some { date := "2025-01-01", sent := 3 })
          "2025-01-01")).data) ∧
    (increment_quota (some { date := "2025-01-01", sent := 3 }) "2025-01-01").sent
      = (load_quota (some { date := "2025-01-01", sent := 3 }) "2025-01-01").sent + 1 :=
  save_quota_completed_write_durable { date := "2025-01-01", sent := 3 } "2025-01-01" 100
    (by decide)

/-- Every profile built by `buildProfiles` carries the id its URL
extracts. -/
theorem buildProfiles_identity (rows : List (Nat × Row)) (filter : Row → Bool)
    (limit : Nat) (p : Profile) (hp : p ∈ buildProfiles rows filter limit) :
    extract_public_id p.linkedin_url = some p.public_id := by
  rw [buildProfiles, List.mem_filterMap] at hp
  obtain ⟨a, _, ha⟩ := hp
  rw [Option.map_eq_some'] at ha
  obtain ⟨pid, hpid, hprof⟩ := ha
  subst hprof
  exact hpid

/-- `buildProfiles` never returns more than `limit` profiles. -/
theorem buildProfiles_length (rows : List (Nat × Row)) (filter : Row → Bool)
    (limit : Nat) : (buildProfiles rows filter limit).length ≤ limit := by
  rw [buildProfiles]
  exact le_trans (List.length_filterMap_le _ _) (List.length_take_le _ _)

/-- C10: both spreadsheet loaders return at most `limit` profiles and
every returned profile carries a successfully extracted identity; and
because the `limit` cutoff is applied before rows with unparseable URLs
are discarded, a run can return fewer than `limit` profiles although a
later valid uncontacted row exists (concrete two-row sheet with
`limit = 1`). -/
theorem load_profiles_limit_and_identity :
    (∀ (df : List Row) (limit : Nat),
      (load_profiles_from_excel df limit).length ≤ limit ∧
      ∀ p ∈ load_profiles_from_excel df limit,
        extract_public_id p.linkedin_url = some p.public_id) ∧
    (∀ (df : List Row) (limit : Nat),
      (load_profiles_from_excel_dm df limit).length ≤ limit ∧
      ∀ p ∈ load_profiles_from_excel_dm df limit,
        extract_public_id p.linkedin_url = some p.public_id) ∧
    (load_profiles_from_excel
        [ { name := some "A", url := some "https://example.com", status := none }
        , { name := some "B"
            url := some "https://www.linkedin.com/in/b-user/"
            status := none } ] 1 = [] ∧
      isUncontacted
        { name := some "B"
          url := some "https://www.linkedin.com/in/b-user/"
          status := none } = true ∧
      extract_public_id (some "https://www.linkedin.com/in/b-user/") = some "b-user") := by
  refine ⟨?_, ?_, ?_, ?_, ?_⟩
  · intro df limit
    exact ⟨buildProfiles_length _ _ _, fun p hp => buildProfiles_identity _ _ _ p hp⟩
  · intro df limit
    exact ⟨buildProfiles_length _ _ _, fun p hp => buildProfiles_identity _ _ _ p hp⟩
  · decide
  · decide
  · decide

/-- Witness for C10 on a concrete sheet: the single returned profile
satisfies the identity property. -/
theorem load_profiles_limit_and_identity_witness :
    (load_profiles_from_excel
        [ { name := some "B"
            url := some "https://www.linkedin.com/in/b-user/"
            status := none } ] 5).length ≤ 5 ∧
    extract_public_id
        (Profile.mk (some "B") "b-user"
          (some "https://www.linkedin.com/in/b-user/") 0).linkedin_url
      = some (Profile.mk (some "B") "b-user"
          (some "https://www.linkedin.com/in/b-user/") 0).public_id :=
  ⟨(load_profiles_limit_and_identity.1
      [ { name := some "B"
          url := some "https://www.linkedin.com/in/b-user/"
          status := none } ] 5).1,
    (load_profiles_limit_and_identity.1
      [ { name := some "B"
          url := some "https://www.linkedin.com/in/b-user/"
          status := none } ] 5).2 _ (by decide)⟩

/-- `runLoop` on a non-empty target list, expressed through `stepState`:
quota exhaustion stops before the attempt, `session_expired` stops after
the attempt, everything else recurses on the stepped state. -/
theorem runLoop_cons_eq (today : String) (row : Nat) (r : SendResult)
    (tl : List (Nat × SendResult)) (s : LoopState) :
    runLoop today ((row, r) :: tl) s =
      if get_remaining_quota s.file today = 0 then s
      else if r = SendResult.session_expired then stepState today row r s
      else runLoop today tl (stepState today row r s) := by
  cases r <;> rw [runLoop] <;> rfl

/-- `stepState` appends its target to the attempted list. -/
theorem stepState_processed (today : String) (row : Nat) (r : SendResult)
    (s : LoopState) :
    (stepState today row r s).processed = s.processed ++ [(row, r)] := by
  cases r <;> rfl

/-- For every non-fatal result, `stepState` records the classification's
status. -/
theorem stepState_recs (today : String) (row : Nat) (r : SendResult)
    (s : LoopState) (hse : r ≠ SendResult.session_expired) :
    (stepState today row r s).recs = s.recs ++ [(row, statusOf r)] := by
  cases r <;> first | exact absurd rfl hse | rfl

/-- `session_expired` writes no status. -/
theorem stepState_recs_session_expired (today : String) (row : Nat) (s : LoopState) :
    (stepState today row SendResult.session_expired s).recs = s.recs := rfl

/-- Only `sent` touches the quota file. -/
theorem stepState_file_ne_sent (today : String) (row : Nat) (r : SendResult)
    (s : LoopState) (h : r ≠ SendResult.sent) :
    (stepState today row r s).file = s.file := by
  cases r <;> first | exact absurd rfl h | rfl

/-- `sent` commits the incremented quota record. -/
theorem stepState_file_sent (today : String) (row : Nat) (s : LoopState) :
    (stepState today row SendResult.sent s).file
      = some (increment_quota s.file today) := rfl

/-- Status writes are never retracted: anything already written to the
recorder stays there for the rest of the run. -/
theorem runLoop_recs_mono (today : String) (l : List (Nat × SendResult))
    (s : LoopState) (x : Nat × String) (hx : x ∈ s.recs) :
    x ∈ (runLoop today l s).recs := by
  induction l generalizing s with
  | nil => simpa [runLoop] using hx
  | cons hd tl ih =>
    obtain ⟨row, r⟩ := hd
    rw [runLoop_cons_eq]
    split
    · exact hx
    · split
      · next hse => subst hse; exact hx
      · next hse =>
          apply ih
          rw [stepState_recs today row r s hse]
          exact List.mem_append_left _ hx

/-- C3 counterexample: the claim that every terminal classification —
including `SessionExpired` — is written to the outcome recorder is false.
When `send_direct_message` returns `session_expired`, `main` prints and
`break`s without calling `update_excel_status`: the target was attempted
and classified, yet no status is recorded. -/
theorem session_expired_status_not_recorded :
    (runLoop "2025-06-01" [(0, SendResult.session_expired)]
        (initState (some { date := "2025-06-01", sent := 0 }))).processed
      = [(0, SendResult.session_expired)] ∧
    (runLoop "2025-06-01" [(0, SendResult.session_expired)]
        (initState (some { date := "2025-06-01", sent := 0 }))).recs = [] := by
  decide

/-- C3 amended: for every target attempt with a terminal classification
other than `SessionExpired`, the orchestrator loop writes that
classification's status to the recorder before continuing; a
`SessionExpired` classification stops the run with no status written for
the triggering target (see the counterexample). -/
theorem terminal_status_recorded_unless_session_expired
    (today : String) (targets : List (Nat × SendResult)) (s : LoopState)
    (row : Nat) (r : SendResult)
    (hmem : (row, r) ∈ (runLoop today targets s).processed)
    (hnew : (row, r) ∉ s.processed)
    (hse : r ≠ SendResult.session_expired) :
    (row, statusOf r) ∈ (runLoop today targets s).recs := by
  induction targets generalizing s with
  | nil =>
    rw [runLoop] at hmem
    exact absurd hmem hnew
  | cons hd tl ih =>
    obtain ⟨row', r'⟩ := hd
    rw [runLoop_cons_eq] at hmem ⊢
    by_cases hq : get_remaining_quota s.file today = 0
    · rw [if_pos hq] at hmem ⊢
      exact absurd hmem hnew
    · rw [if_neg hq] at hmem ⊢
      by_cases hse' : r' = SendResult.session_expired
      · rw [if_pos hse'] at hmem ⊢
        subst hse'
        rw [stepState_processed] at hmem
        rcases List.mem_append.1 hmem with h | h
        · exact absurd h hnew
        · rw [List.mem_singleton, Prod.mk.injEq] at h
          exact absurd h.2 hse
      · rw [if_neg hse'] at hmem ⊢
        by_cases hx : (row, r) ∈ (stepState today row' r' s).processed
        · rw [stepState_processed] at hx
          rcases List.mem_append.1 hx with h | h
          · exact absurd h hnew
          · rw [List.mem_singleton, Prod.mk.injEq] at h
            obtain ⟨h1, h2⟩ := h
            subst h1; subst h2
            apply runLoop_recs_mono
            rw [stepState_recs today row r s hse]
            exact List.mem_append_right _ (List.mem_singleton.2 rfl)
        · exact ih (stepState today row' r' s) hmem hx

/-- Witness for the C3 amended theorem: a concrete one-target run whose
`sent` classification is recorded. -/
theorem terminal_status_recorded_unless_session_expired_witness :
    ((0 : Nat), statusOf SendResult.sent)
      ∈ (runLoop "2025-06-01" [(0, SendResult.sent)]
          (initState (some { date := "2025-06-01", sent := 0 }))).recs :=
  terminal_status_recorded_unless_session_expired "2025-06-01"
    [(0, SendResult.sent)] (initState (some { date := "2025-06-01", sent := 0 }))
    0 SendResult.sent (by decide) (by decide) (by decide)

/-- C4: a `session_expired` result stops the entire run — the loop's
outcome does not depend on any target after the triggering one, so no
later target is ever attempted.  Concretely, with the authentication wall
on the second of five targets, exactly the first two targets are
attempted, the last three are untouched, and the summary holds one sent
classification plus the stop. -/
theorem session_expired_stops_run :
    (∀ (today : String) (row : Nat) (rest : List (Nat × SendResult)) (s : LoopState),
      runLoop today ((row, SendResult.session_expired) :: rest) s =
        runLoop today [(row, SendResult.session_expired)] s) ∧
    (runLoop "2025-06-01"
        [(0, SendResult.sent), (1, SendResult.session_expired), (2, SendResult.sent),
          (3, SendResult.sent), (4, SendResult.sent)]
        (initState (some { date := "2025-06-01", sent := 0 }))
      = { file := some { date := "2025-06-01", sent := 1 }
          recs := [(0, "sent")]
          success_count := 1
          failure_count := 0
          processed := [(0, SendResult.sent), (1, SendResult.session_expired)] }) := by
  constructor
  · intro today row rest s
    rw [runLoop_cons_eq, runLoop_cons_eq]
    simp
  · decide

/-- Equality of quota records with matching day. -/
theorem quota_eq_today (q : Quota) (today : String) (h : q.date = today) :
    q = { date := today, sent := q.sent } := by
  obtain ⟨qd, qs⟩ := q
  cases h
  rfl

/-- C5: over any run of the orchestrator loop that starts on a
current-day ledger record, the persisted count ends at the starting count
plus exactly the number of attempts classified `sent` — so the ledger is
incremented exactly once per `Sent` and unchanged on every other terminal
classification; the dm-mode branch of linkedin_dm.py likewise increments
the `messages` counter exactly on `sent`/`sent_enter` and leaves the
usage file untouched otherwise. -/
theorem ledger_increment_iff_sent :
    (∀ (today : String) (targets : List (Nat × SendResult)) (s : LoopState) (q : Quota),
      s.file = some q → q.date = today →
      ∃ p, (runLoop today targets s).processed = s.processed ++ p ∧
        (runLoop today targets s).file
          = some { date := today, sent := q.sent + sentCount p }) ∧
    (∀ (file : Option Usage) (today : String) (u : Usage) (r : DmResult),
      file = some u → u.date = today →
      ((r = DmResult.sent ∨ r = DmResult.sent_enter) →
        dmStepFile file today r = some { u with messages := u.messages + 1 }) ∧
      (r ≠ DmResult.sent → r ≠ DmResult.sent_enter → dmStepFile file today r = file)) := by
  constructor
  · intro today targets
    induction targets with
    | nil =>
      intro s q hfile hdate
      refine ⟨[], by rw [runLoop]; simp, ?_⟩
      rw [runLoop, hfile, quota_eq_today q today hdate]
      simp [sentCount]
    | cons hd tl ih =>
      intro s q hfile hdate
      obtain ⟨row', r'⟩ := hd
      rw [runLoop_cons_eq]
      by_cases hq0 : get_remaining_quota s.file today = 0
      · rw [if_pos hq0]
        refine ⟨[], by simp, ?_⟩
        rw [hfile, quota_eq_today q today hdate]
        simp [sentCount]
      · rw [if_neg hq0]
        by_cases hse : r' = SendResult.session_expired
        · rw [if_pos hse]
          subst hse
          refine ⟨[(row', SendResult.session_expired)], stepState_processed _ _ _ _, ?_⟩
          rw [stepState_file_ne_sent today row' _ s (by simp), hfile,
            quota_eq_today q today hdate]
          simp [sentCount]
        · rw [if_neg hse]
          by_cases hsent : r' = SendResult.sent
          · subst hsent
            have hfile' : (stepState today row' SendResult.sent s).file
                = some { date := today, sent := q.sent + 1 } := by
              rw [stepState_file_sent]
              simp [increment_quota, load_quota, hfile, hdate]
            obtain ⟨p', hp', hf'⟩ := ih (stepState today row' SendResult.sent s)
              { date := today, sent := q.sent + 1 } hfile' rfl
            refine ⟨(row', SendResult.sent) :: p', ?_, ?_⟩
            · rw [hp', stepState_processed]
              simp
            · have harith : q.sent + 1 + sentCount p'
                  = q.sent + sentCount ((row', SendResult.sent) :: p') := by
                simp only [sentCount, List.countP_cons]
                simp
                omega
              rw [hf', harith]
          · have hfile' : (stepState today row' r' s).file = some q := by
              rw [stepState_file_ne_sent today row' r' s hsent, hfile]
            obtain ⟨p', hp', hf'⟩ := ih (stepState today row' r' s) q hfile' hdate
            refine ⟨(row', r') :: p', ?_, ?_⟩
            · rw [hp', stepState_processed]
              simp
            · have harith : sentCount ((row', r') :: p') = sentCount p' := by
                simp [sentCount, List.countP_cons, hsent]
              rw [hf', harith]
  · intro file today u r hfile hdate
    subst hfile
    constructor
    · rintro (rfl | rfl) <;>
        simp [dmStepFile, increment_usage, load_usage, hdate]
    · intro h1 h2
      cases r <;> first | exact absurd rfl h1 | exact absurd rfl h2 | rfl

/-- Witness for C5: a concrete two-target run (one `sent`, one failure)
commits exactly one increment, and the dm-mode step on `sent`. -/
theorem ledger_increment_iff_sent_witness :
    (∃ p, (runLoop "2025-06-01" [(0, SendResult.sent), (1, SendResult.follow_only)]
        (initState (some { date := "2025-06-01", sent := 0 }))).processed
        = (initState (some { date := "2025-06-01", sent := 0 })).processed ++ p ∧
      (runLoop "2025-06-01" [(0, SendResult.sent), (1, SendResult.follow_only)]
        (initState (some { date := "2025-06-01", sent := 0 }))).file
        = some { date := "2025-06-01", sent := 0 + sentCount p }) ∧
    dmStepFile (some { date := "2025-06-01", messages := 4, connections := 2 })
        "2025-06-01" DmResult.sent
      = some { date := "2025-06-01", messages := 4 + 1, connections := 2 } :=
  ⟨ledger_increment_iff_sent.1 "2025-06-01"
      [(0, SendResult.sent), (1, SendResult.follow_only)]
      (initState (some { date := "2025-06-01", sent := 0 }))
      { date := "2025-06-01", sent := 0 } rfl rfl,
    (ledger_increment_iff_sent.2
      (some { date := "2025-06-01", messages := 4, connections := 2 }) "2025-06-01"
      { date := "2025-06-01", messages := 4, connections := 2 } DmResult.sent rfl rfl).1
      (Or.inl rfl)⟩

/-- The probe phase of `send_direct_message` agrees with ordered
first-match resolution over the declarative strategy list. -/
theorem classify_eq (p : Page) :
    classify p = (resolveFirst probeStrategies p).getD ProbeOutcome.no_connect_button := by
  obtain ⟨mb, pa, ps, c1, c2, c3, c4, c5, ma, m1, m2, m3, c7, fb⟩ := p
  cases mb with
  | true => rfl
  | false =>
    cases pa with
    | true => rfl
    | false =>
      cases ps with
      | true => rfl
      | false =>
        cases c1 with
        | some e3 => rfl
        | none =>
          cases c2 with
          | some e4 => rfl
          | none =>
            cases c3 with
            | some e5 => rfl
            | none =>
              cases c4 with
              | some e6 => rfl
              | none =>
                cases c5 with
                | some e7 => rfl
                | none =>
                  cases ma with
                  | false =>
                    cases c7 with
                    | some e9 => rfl
                    | none =>
                      cases fb with
                      | true => rfl
                      | false => rfl
                  | true =>
                    cases m1 with
                    | some em1 => rfl
                    | none =>
                      cases m2 with
                      | some em2 => rfl
                      | none =>
                        cases m3 with
                        | some em3 => rfl
                        | none =>
                          cases c7 with
                          | some e9 => rfl
                          | none =>
                            cases fb with
                            | true => rfl
                            | false => rfl

/-- Once some strategy of a priority list matches, strategies appended
after the list never influence the resolution. -/
theorem resolveFirst_append_of_hit (l1 l2 : List (Page → Option ProbeOutcome)) (p : Page)
    (h : ∃ f ∈ l1, (f p).isSome) :
    resolveFirst (l1 ++ l2) p = resolveFirst l1 p := by
  induction l1 with
  | nil =>
    obtain ⟨f, hf, _⟩ := h
    exact absurd hf (List.not_mem_nil f)
  | cons f rest ih =>
    rw [List.cons_append, resolveFirst, resolveFirst]
    cases hfp : f p with
    | some r => rfl
    | none =>
      obtain ⟨g, hg, hgs⟩ := h
      rcases List.mem_cons.1 hg with rfl | hg'
      · rw [hfp] at hgs
        exact absurd hgs (by simp)
      · exact ih ⟨g, hg', hgs⟩

/-- Resolution fails exactly when every strategy fails. -/
theorem resolveFirst_eq_none_iff (l : List (Page → Option ProbeOutcome)) (p : Page) :
    resolveFirst l p = none ↔ ∀ f ∈ l, f p = none := by
  induction l with
  | nil => simp [resolveFirst]
  | cons f rest ih =>
    rw [resolveFirst]
    cases hfp : f p with
    | some r => simp [hfp]
    | none => simp [hfp, ih]

/-- A successful resolution comes from one of the strategies. -/
theorem resolveFirst_eq_some (l : List (Page → Option ProbeOutcome)) (p : Page)
    (r : ProbeOutcome) (h : resolveFirst l p = some r) :
    ∃ f ∈ l, f p = some r := by
  induction l with
  | nil => simp [resolveFirst] at h
  | cons f rest ih =>
    rw [resolveFirst] at h
    cases hfp : f p with
    | some r' =>
      rw [hfp] at h
      exact ⟨f, List.mem_cons_self f rest, by rw [hfp]; exact h⟩
    | none =>
      rw [hfp] at h
      obtain ⟨g, hg, hgs⟩ := ih h
      exact ⟨g, List.mem_cons_of_mem f hg, hgs⟩

/-- No probe strategy ever emits the `no_connect_button` fallback. -/
theorem probeStrategies_ne_no_button :
    ∀ f ∈ probeStrategies, ∀ p : Page, f p ≠ some ProbeOutcome.no_connect_button := by
  intro f hf p
  simp only [probeStrategies, List.mem_cons, List.not_mem_nil, or_false] at hf
  rcases hf with rfl|rfl|rfl|rfl|rfl|rfl|rfl|rfl|rfl|rfl|rfl <;>
    intro hcontra <;>
    simp [Option.map_eq_some'] at hcontra

/-- C6: resolution is first-match-wins under the fixed priority order —
the probe phase of `send_direct_message` equals ordered first-match
resolution over the declarative strategy list; once a strategy matches,
lower-priority strategies never influence the outcome; and
`no_connect_button` (NoActionableControl) is emitted exactly when no
probe matches. -/
theorem probe_first_match_wins :
    (∀ p : Page, classify p
        = (resolveFirst probeStrategies p).getD ProbeOutcome.no_connect_button) ∧
    (∀ (l1 l2 : List (Page → Option ProbeOutcome)) (p : Page),
      (∃ f ∈ l1, (f p).isSome) →
      resolveFirst (l1 ++ l2) p = resolveFirst l1 p) ∧
    (∀ p : Page, classify p = ProbeOutcome.no_connect_button ↔
      ∀ f ∈ probeStrategies, f p = none) := by
  refine ⟨classify_eq, resolveFirst_append_of_hit, ?_⟩
  intro p
  constructor
  · intro heq
    cases hr : resolveFirst probeStrategies p with
    | none => exact (resolveFirst_eq_none_iff _ _).1 hr
    | some r =>
      rw [classify_eq, hr] at heq
      simp at heq
      subst heq
      obtain ⟨f, hf, hfp⟩ := resolveFirst_eq_some _ _ _ hr
      exact absurd hfp (probeStrategies_ne_no_button f hf p)
  · intro hall
    rw [classify_eq, (resolveFirst_eq_none_iff _ _).2 hall]
    rfl

/-- Witness for C6: on a page where every probe would match, appending a
whole second copy of the strategy list changes nothing — the
highest-priority match alone decides. -/
theorem probe_first_match_wins_witness :
    resolveFirst (probeStrategies ++ probeStrategies)
        { messageBtn := true, pendingAria := true, pendingSpan := true
          connect1 := some 1, connect2 := some 2, connect3 := some 3
          connect4 := some 4, connect5 := some 5, moreActions := true
          menuConnect1 := some 6, menuConnect2 := some 7, menuConnect3 := some 8
          connect7 := some 9, followBtn := true }
      = resolveFirst probeStrategies
        { messageBtn := true, pendingAria := true, pendingSpan := true
          connect1 := some 1, connect2 := some 2, connect3 := some 3
          connect4 := some 4, connect5 := some 5, moreActions := true
          menuConnect1 := some 6, menuConnect2 := some 7, menuConnect3 := some 8
          connect7 := some 9, followBtn := true } :=
  probe_first_match_wins.2.1 probeStrategies probeStrategies _
    ⟨fun p => if p.messageBtn then some ProbeOutcome.already_connected else none,
      by simp [probeStrategies], rfl⟩

/-- If the marker substring occurs nowhere, the regex search fails. -/
theorem searchPublicId_eq_none_of_no_marker (l : List Char)
    (h : ¬ (marker <:+: l)) : searchPublicId l = none := by
  induction l with
  | nil => rfl
  | cons c rest ih =>
    rw [searchPublicId]
    have hpre : ¬ marker.isPrefixOf (c :: rest) := by
      intro hp
      exact h (List.IsPrefix.isInfix (List.isPrefixOf_iff_prefix.1 hp))
    rw [if_neg (by simpa using hpre)]
    exact ih fun hinf => h (List.infix_cons hinf)

/-- If the marker occurs followed by at least one non-delimiter
character, the regex search captures a non-empty group. -/
theorem searchPublicId_some_of_occurrence (l : List Char)
    (h : ∃ pre c post, l = pre ++ marker ++ (c :: post) ∧ idChar c = true) :
    ∃ seg, searchPublicId l = some seg ∧ seg ≠ [] := by
  induction l with
  | nil =>
    obtain ⟨pre, c, post, hl, -⟩ := h
    exact absurd hl.symm (by simp [marker])
  | cons a rest ih =>
    obtain ⟨pre, c, post, hl, hc⟩ := h
    rw [searchPublicId]
    by_cases hp : marker.isPrefixOf (a :: rest)
    · rw [if_pos (by simpa using hp)]
      by_cases hseg : (((a :: rest).drop marker.length).takeWhile idChar).isEmpty
      · cases pre with
        | nil =>
          exfalso
          simp only [List.nil_append] at hl
          rw [hl, List.drop_left] at hseg
          simp [List.takeWhile_cons_of_pos hc] at hseg
        | cons p0 pre' =>
          rw [if_pos hseg]
          apply ih
          refine ⟨pre', c, post, ?_, hc⟩
          have := congrArg List.tail hl
          simpa using this
      · rw [if_neg hseg]
        refine ⟨_, rfl, ?_⟩
        intro he
        rw [he] at hseg
        exact hseg rfl
    · rw [if_neg (by simpa using hp)]
      cases pre with
      | nil =>
        exfalso
        apply hp
        rw [List.isPrefixOf_iff_prefix]
        simp only [List.nil_append] at hl
        rw [hl]
        exact List.prefix_append marker _
      | cons p0 pre' =>
        apply ih
        refine ⟨pre', c, post, ?_, hc⟩
        have := congrArg List.tail hl
        simpa using this

/-- Every captured group is non-empty and consists of characters the
capture class accepts (no slash, no question mark). -/
theorem searchPublicId_some_spec (l seg : List Char)
    (h : searchPublicId l = some seg) :
    seg ≠ [] ∧ ∀ ch ∈ seg, idChar ch = true := by
  induction l with
  | nil => simp [searchPublicId] at h
  | cons a rest ih =>
    rw [searchPublicId] at h
    by_cases hp : marker.isPrefixOf (a :: rest)
    · rw [if_pos (by simpa using hp)] at h
      by_cases hseg : (((a :: rest).drop marker.length).takeWhile idChar).isEmpty
      · rw [if_pos hseg] at h
        exact ih h
      · rw [if_neg hseg] at h
        injection h with h'
        subst h'
        refine ⟨?_, fun ch hch => List.mem_takeWhile_imp hch⟩
        intro he
        exact hseg (by simp [he])
    · rw [if_neg (by simpa using hp)] at h
      exact ih h

/-- C7: `extract_public_id` is total over all string-or-absent inputs:
absent (None/NaN) and empty inputs yield no identity, inputs without the
`linkedin.com/in/` marker yield no identity, any returned identity is
non-empty and delimiter-free (the segment up to the next slash or
question mark), and every well-formed URL — marker followed by at least
one non-delimiter character — yields a non-empty identity.  No input can
raise: the function is a Lean total function by construction. -/
theorem extract_public_id_total :
    (extract_public_id none = none) ∧
    (extract_public_id (some "") = none) ∧
    (∀ s : String, ¬ (marker <:+: s.data) → extract_public_id (some s) = none) ∧
    (∀ (s pid : String), extract_public_id (some s) = some pid →
      pid ≠ "" ∧ ∀ ch ∈ pid.data, idChar ch = true) ∧
    (∀ s : String,
      (∃ pre c post, s.data = pre ++ marker ++ (c :: post) ∧ idChar c = true) →
      ∃ pid : String, extract_public_id (some s) = some pid ∧ pid ≠ "") := by
  refine ⟨rfl, rfl, ?_, ?_, ?_⟩
  · intro s hinf
    by_cases hs : s = ""
    · simp [extract_public_id, hs]
    · simp only [extract_public_id, if_neg hs]
      rw [searchPublicId_eq_none_of_no_marker s.data hinf]
      rfl
  · intro s pid h
    simp only [extract_public_id] at h
    by_cases hs : s = ""
    · rw [if_pos hs] at h
      exact absurd h (by simp)
    · rw [if_neg hs, Option.map_eq_some'] at h
      obtain ⟨seg, hseg, hid⟩ := h
      obtain ⟨hne, hall⟩ := searchPublicId_some_spec s.data seg hseg
      subst hid
      exact ⟨fun he => hne (congrArg String.data he), fun ch hch => hall ch hch⟩
  · intro s hocc
    have hs : s ≠ "" := by
      intro he
      subst he
      obtain ⟨pre, c, post, hl, -⟩ := hocc
      exact absurd hl (by simp)
    obtain ⟨seg, hsome, hne⟩ := searchPublicId_some_of_occurrence s.data hocc
    refine ⟨String.mk seg, ?_, fun he => hne (congrArg String.data he)⟩
    simp only [extract_public_id, if_neg hs, hsome, Option.map_some']

/-- Witness for C7 on concrete URLs. -/
theorem extract_public_id_total_witness :
    extract_public_id (some "not-a-linkedin-url") = none ∧
    (∃ pid, extract_public_id (some "https://www.linkedin.com/in/john-doe/")
        = some pid ∧ pid ≠ "") :=
  ⟨extract_public_id_total.2.2.1 "not-a-linkedin-url" (by decide),
    extract_public_id_total.2.2.2.2 "https://www.linkedin.com/in/john-doe/"
      ⟨"https://www.".data, 'j', "ohn-doe/".data, by decide, by decide⟩⟩


end JobAutomation
